import Mathlib

/-!
Shallow embedding of the MVP respawn tracker in `src/mvp_tracker.py`
(class `MVPTracker`): the in-memory state (`mvp_database`, `tracked_mvps`),
the four public operations `add_mvp`, `track`, `remove`, `delete_mvp`, and
the status classification and column-width computation of
`generate_tracker_table`.

Time is modelled as an integer count of microseconds on the wall clock of
the fixed home timezone (`America/Los_Angeles` in the source).  All the
arithmetic performed by the source (`datetime.replace`, `timedelta(minutes=...)`,
comparisons, `total_seconds() / 60`) is exact at microsecond granularity, so
an integer timeline is a faithful model; timezone conversion (the GMT+8
display column) never feeds back into any computation.  Python dictionaries
are modelled as insertion-ordered association lists.
-/

namespace MVPBot

/-- Microseconds per second. -/
def usPerSec : Int := 1000000

/-- Microseconds per minute. -/
def usPerMin : Int := 60000000

/-- Microseconds per hour. -/
def usPerHour : Int := 3600000000

/-- Microseconds per day. -/
def usPerDay : Int := 86400000000

/-- Microseconds elapsed since local midnight (always in `[0, usPerDay)`). -/
def timeOfDay (t : Int) : Int := t % usPerDay

/-- The (local) calendar day of an instant, as a day count since the epoch. -/
def dayOf (t : Int) : Int := t / usPerDay

/-- The wall-clock hour (`datetime.hour`) of an instant. -/
def hourOf (t : Int) : Int := timeOfDay t / usPerHour

/-- The wall-clock minute (`datetime.minute`) of an instant. -/
def minuteOf (t : Int) : Int := timeOfDay t / usPerMin % 60

/-- The wall-clock second (`datetime.second`) of an instant. -/
def secondOf (t : Int) : Int := timeOfDay t / usPerSec % 60

/-- The microsecond field (`datetime.microsecond`) of an instant. -/
def microOf (t : Int) : Int := timeOfDay t % usPerSec

/-- ASCII lowercasing of one character, as Python `str.lower` acts on the
ASCII range (the boss names in this repository are ASCII). -/
def pyLowerChar (c : Char) : Char :=
  if 65 ≤ c.toNat ∧ c.toNat ≤ 90 then Char.ofNat (c.toNat + 32) else c

/-- `mvp_name.lower()` — the case-folding applied by every public operation
of `MVPTracker` before using a name as a dictionary key. -/
def pyLower (s : String) : String := String.mk (s.data.map pyLowerChar)

/-- Whitespace stripped by Python `int(str)` (ASCII fragment). -/
def isPySpace (c : Char) : Bool :=
  c == ' ' || c == '\t' || c == '\n' || c == '\r' || c == '\x0B' || c == '\x0C'

/-- The numeric value of an ASCII digit, `none` for any other character. -/
def pyDigit? (c : Char) : Option Nat :=
  if 48 ≤ c.toNat ∧ c.toNat ≤ 57 then some (c.toNat - 48) else none

/-- Continuation of digit parsing for Python `int`: after at least one digit,
accepts further digits, with single underscores allowed between digits. -/
def pyDigitsAux : Nat → List Char → Option Nat
  | acc, [] => some acc
  | acc, c :: rest =>
    match pyDigit? c with
    | some d => pyDigitsAux (10 * acc + d) rest
    | none =>
      if c = '_' then
        match rest with
        | [] => none
        | c2 :: rest2 =>
          match pyDigit? c2 with
          | some d2 => pyDigitsAux (10 * acc + d2) rest2
          | none => none
      else none

/-- A nonempty digit group as accepted by Python `int` (digits with single
underscores between digits). -/
def pyDigits : List Char → Option Nat
  | [] => none
  | c :: rest =>
    match pyDigit? c with
    | some d => pyDigitsAux d rest
    | none => none

/-- Strip leading and trailing `int()`-style whitespace. -/
def pyStripWs (l : List Char) : List Char :=
  ((l.dropWhile fun c => isPySpace c).reverse.dropWhile fun c => isPySpace c).reverse

/-- Python `int(str)` on a character list: optional whitespace, optional
sign, digit group; `none` models the `ValueError` raised otherwise. -/
def pyIntOfChars (l : List Char) : Option Int :=
  match pyStripWs l with
  | '-' :: rest => Option.map (fun n => -(n : Int)) (pyDigits rest)
  | '+' :: rest => Option.map (fun n => (n : Int)) (pyDigits rest)
  | stripped => Option.map (fun n => (n : Int)) (pyDigits stripped)

/-- Python `s.split(':')`: splits at every colon, keeping empty parts
(`"".split(':') == ['']`). -/
def splitOnColon : List Char → List (List Char)
  | [] => [[]]
  | c :: rest =>
    if c = ':' then [] :: splitOnColon rest
    else
      match splitOnColon rest with
      | [] => [[c]]
      | h :: t => (c :: h) :: t

/-- `hours, minutes = map(int, time_of_death.split(':'))` — `none` models the
`ValueError` raised when a part is not an integer literal or the unpacking
fails because the split does not have exactly two parts. -/
def parseHM (s : String) : Option (Int × Int) :=
  match (splitOnColon s.data).map pyIntOfChars with
  | [some h, some m] => some (h, m)
  | _ => none

/-- `now.replace(hour=hours, minute=minutes, second=0, microsecond=0)` —
keeps the date of `now`, sets the given wall-clock hour and minute, zeroes
the second and microsecond; `none` models the `ValueError` raised by
`datetime.replace` when the hour is outside `0..23` or the minute outside
`0..59`. -/
def replaceHM (now h m : Int) : Option Int :=
  if 0 ≤ h ∧ h ≤ 23 ∧ 0 ≤ m ∧ m ≤ 59 then
    some (now - timeOfDay now + h * usPerHour + m * usPerMin)
  else none

/-- One entry of `mvp_database`: the dict
`{"name": ..., "downtime": ..., "spawn_range": ...}` stored by `add_mvp`. -/
structure BossEntry where
  name : String
  downtime : Int
  spawn_range : Int
deriving DecidableEq

/-- One entry of `tracked_mvps`: the dict written by `track` (or loaded from
`tracked_mvps.json`, where the last three fields may be `null`). -/
structure TrackInfo where
  tracking_since : Int
  last_death : Option Int
  next_spawn_start : Option Int
  next_spawn_end : Option Int
deriving DecidableEq

/-- Dictionary lookup `d[k]` / `k in d` on an insertion-ordered
association list. -/
def lookupKey {α : Type} : List (String × α) → String → Option α
  | [], _ => none
  | (k, v) :: rest, key => if k = key then some v else lookupKey rest key

/-- Dictionary assignment `d[k] = v`: updates in place if the key is
present, otherwise appends at the end (Python dict insertion order). -/
def setKey {α : Type} : List (String × α) → String → α → List (String × α)
  | [], key, v => [(key, v)]
  | (k, w) :: rest, key, v =>
    if k = key then (key, v) :: rest else (k, w) :: setKey rest key v

/-- Dictionary deletion `del d[k]` (removes the first entry with the key). -/
def eraseKey {α : Type} : List (String × α) → String → List (String × α)
  | [], _ => []
  | (k, w) :: rest, key => if k = key then rest else (k, w) :: eraseKey rest key

/-- The in-memory state of `MVPTracker`: the boss database and the
tracking ledger. -/
structure TrackerState where
  mvp_database : List (String × BossEntry)
  tracked_mvps : List (String × TrackInfo)
deriving DecidableEq

/-- The empty state (both JSON files absent on startup). -/
def initialState : TrackerState := TrackerState.mk [] []

/-- `MVPTracker.add_mvp` (src/mvp_tracker.py lines 131-140): lowercases the
name, stores the profile under it unconditionally, returns a success
message. -/
def add_mvp (st : TrackerState) (mvp_name : String) (downtime spawn_range : Int) :
    TrackerState × String :=
  let name := pyLower mvp_name
  ({ st with mvp_database := setKey st.mvp_database name (BossEntry.mk name downtime spawn_range) },
   "✅ Added/Updated " ++ name ++ " (DT: " ++ toString downtime ++ "m, SR: " ++ toString spawn_range ++ "m)")

/-- `MVPTracker.track` (src/mvp_tracker.py lines 142-179).  `now` is the
value of `datetime.datetime.now(self.pst_tz)`.  The branch on line 150 is
`if time_of_death:` — a Python truthiness test, so both `None` and the
falsy empty string `""` take the else branch (lines 163-167), which
records a death at `now`; only a non-empty string is parsed.  An unknown
boss or a non-empty malformed time string returns the state unchanged with
an error message; otherwise the death time, window start and window end
are recorded under the lowercased name. -/
def track (st : TrackerState) (now : Int) (mvp_name : String)
    (time_of_death : Option String) : TrackerState × String :=
  let name := pyLower mvp_name
  match lookupKey st.mvp_database name with
  | none => (st, "❌ " ++ name ++ " not found in database")
  | some mvp_info =>
    match time_of_death with
    | some tod =>
      if tod = "" then
        let death_time := now
        let next_spawn_start := death_time + mvp_info.downtime * usPerMin
        let next_spawn_end := next_spawn_start + mvp_info.spawn_range * usPerMin
        let nm := mvp_info.name
        let rec0 := TrackInfo.mk now (some death_time) (some next_spawn_start) (some next_spawn_end)
        ({ st with tracked_mvps := setKey st.tracked_mvps name rec0 },
         "✅ Now tracking " ++ nm)
      else
        match parseHM tod with
        | none => (st, "❌ Invalid time format. Use HH:MM (24-hour format)")
        | some (hours, minutes) =>
          match replaceHM now hours minutes with
          | none => (st, "❌ Invalid time format. Use HH:MM (24-hour format)")
          | some dt =>
            let death_time := if dt > now then dt - usPerDay else dt
            let next_spawn_start := death_time + mvp_info.downtime * usPerMin
            let next_spawn_end := next_spawn_start + mvp_info.spawn_range * usPerMin
            let nm := mvp_info.name
            let rec1 := TrackInfo.mk now (some death_time) (some next_spawn_start) (some next_spawn_end)
            ({ st with tracked_mvps := setKey st.tracked_mvps name rec1 },
             "✅ Now tracking " ++ nm)
    | none =>
      let death_time := now
      let next_spawn_start := death_time + mvp_info.downtime * usPerMin
      let next_spawn_end := next_spawn_start + mvp_info.spawn_range * usPerMin
      let nm := mvp_info.name
      let rec2 := TrackInfo.mk now (some death_time) (some next_spawn_start) (some next_spawn_end)
      ({ st with tracked_mvps := setKey st.tracked_mvps name rec2 },
       "✅ Now tracking " ++ nm)

/-- `MVPTracker.remove` (src/mvp_tracker.py lines 181-188): deletes the
tracking record if present.  The success message reads
`self.mvp_database[mvp_name]['name']` after the deletion; a `none` second
component models the `KeyError` that this read raises when the tracked name
has no database entry (the deletion has already happened at that point). -/
def remove (st : TrackerState) (mvp_name : String) : TrackerState × Option String :=
  let name := pyLower mvp_name
  if (lookupKey st.tracked_mvps name).isSome then
    let st2 := { st with tracked_mvps := eraseKey st.tracked_mvps name }
    match lookupKey st.mvp_database name with
    | some info =>
      let nm := info.name
      (st2, some ("✅ Removed " ++ nm ++ " from tracker"))
    | none => (st2, none)
  else (st, some ("❌ " ++ name ++ " is not being tracked"))

/-- `MVPTracker.delete_mvp` (src/mvp_tracker.py lines 190-201): deletes the
profile if present, and cascade-deletes the tracking record if it exists. -/
def delete_mvp (st : TrackerState) (mvp_name : String) : TrackerState × String :=
  let name := pyLower mvp_name
  match lookupKey st.mvp_database name with
  | some info =>
    let nm := info.name
    (TrackerState.mk (eraseKey st.mvp_database name)
      (if (lookupKey st.tracked_mvps name).isSome then eraseKey st.tracked_mvps name
       else st.tracked_mvps),
     "✅ Deleted " ++ nm ++ " from database")
  | none => (st, "❌ " ++ name ++ " not found in database")

/-- The four row states rendered by `generate_tracker_table`. -/
inductive RowStatus where
  | noRecord : RowStatus
  | pending : Int → RowStatus
  | openWin : Int → RowStatus
  | overdue : RowStatus
deriving DecidableEq

/-- The status classification of one row of `generate_tracker_table`
(src/mvp_tracker.py lines 257-279), given `now` and the record's
`last_death`, `next_spawn_start`, `next_spawn_end` fields.
`int(time_remaining.total_seconds() / 60)` truncates toward zero, which is
`Int.tdiv` of the microsecond difference by `usPerMin`.  The `none` result
models the exception raised when `last_death` is set but a window field is
`null` (the code calls `strftime` on it / compares it against `now`). -/
def classify (now : Int) (last_death nss nse : Option Int) : Option RowStatus :=
  match last_death with
  | none => some RowStatus.noRecord
  | some _ =>
    match nss, nse with
    | some s, some e =>
      if now < s then some (RowStatus.pending (Int.tdiv (s - now) usPerMin))
      else if s ≤ now ∧ now ≤ e then some (RowStatus.openWin (Int.tdiv (e - now) usPerMin))
      else some RowStatus.overdue
    | _, _ => none

/-- The status string placed in the table row for each `RowStatus`. -/
def statusStr : RowStatus → String
  | RowStatus.noRecord => "❓ No record"
  | RowStatus.pending m => "⏳ " ++ toString m ++ "m"
  | RowStatus.openWin m => "🔔 " ++ toString m ++ "m"
  | RowStatus.overdue => "⚠️ Overdue"

/-- `max` of a list of naturals (the lists below always contain `4`, so the
`0` seed never affects the value). -/
def maxList (l : List Nat) : Nat := l.foldl Nat.max 0

/-- Helper for the comprehension on src/mvp_tracker.py line 235: the name
length of each tracked key's database entry, in ledger order; `none` models
the `KeyError` raised when a tracked name has no database entry. -/
def lensAux (db : List (String × BossEntry)) : List (String × TrackInfo) → Option (List Nat)
  | [] => some []
  | p :: rest =>
    match lookupKey db p.1 with
    | none => none
    | some info =>
      match lensAux db rest with
      | none => none
      | some ls => some (info.name.length :: ls)

/-- The list `[len(self.mvp_database[mvp]['name']) for mvp in self.tracked_mvps]`
(src/mvp_tracker.py line 235). -/
def trackedNameLens (st : TrackerState) : Option (List Nat) :=
  lensAux st.mvp_database st.tracked_mvps

/-- `max_name_len = max([...] + [4])` — the name-column width used by
`generate_tracker_table` (src/mvp_tracker.py line 235). -/
def maxNameLen (st : TrackerState) : Option Nat :=
  Option.map (fun lens => maxList (lens ++ [4])) (trackedNameLens st)

/-- Referential invariant: every tracked name has a database profile. -/
def TrackedSubset (st : TrackerState) : Prop :=
  ∀ k : String,
    (lookupKey st.tracked_mvps k).isSome = true →
    (lookupKey st.mvp_database k).isSome = true

/-- The keys of an association list are pairwise distinct (true of every
state built from Python dicts). -/
def NodupKeys {α : Type} (l : List (String × α)) : Prop :=
  (l.map Prod.fst).Nodup

/-- Well-formedness: dictionary keys are duplicate-free (true of every
Python dict) and the referential invariant holds. -/
def WF (st : TrackerState) : Prop :=
  NodupKeys st.mvp_database ∧ NodupKeys st.tracked_mvps ∧ TrackedSubset st

/-- States reachable from the empty state by the public operations. -/
inductive Reachable : TrackerState → Prop where
  | init : Reachable initialState
  | step_add (st : TrackerState) (n : String) (d r : Int) :
      Reachable st → Reachable (add_mvp st n d r).1
  | step_track (st : TrackerState) (now : Int) (n : String) (tod : Option String) :
      Reachable st → Reachable (track st now n tod).1
  | step_remove (st : TrackerState) (n : String) :
      Reachable st → Reachable (remove st n).1
  | step_delete (st : TrackerState) (n : String) :
      Reachable st → Reachable (delete_mvp st n).1

/-! ### Helper lemmas -/

theorem lookupKey_setKey {α : Type} (l : List (String × α)) (k : String) (v : α) (k2 : String) :
    lookupKey (setKey l k v) k2 = if k = k2 then some v else lookupKey l k2 := by
  induction l with
  | nil =>
    by_cases h : k = k2 <;> simp [setKey, lookupKey, h]
  | cons hd tl ih =>
    obtain ⟨k1, w⟩ := hd
    by_cases h1 : k1 = k
    · subst h1
      by_cases h2 : k1 = k2 <;> simp [setKey, lookupKey, h2]
    · by_cases h2 : k1 = k2
      · subst h2
        have hk : ¬ k = k1 := fun h => h1 h.symm
        simp [setKey, lookupKey, h1, hk]
      · simp [setKey, lookupKey, h1, h2, ih]

theorem lookupKey_setKey_self {α : Type} (l : List (String × α)) (k : String) (v : α) :
    lookupKey (setKey l k v) k = some v := by
  simp [lookupKey_setKey]

theorem lookupKey_eraseKey_ne {α : Type} (l : List (String × α)) (k k2 : String)
    (h : k ≠ k2) : lookupKey (eraseKey l k) k2 = lookupKey l k2 := by
  induction l with
  | nil => simp [eraseKey]
  | cons hd tl ih =>
    obtain ⟨k1, w⟩ := hd
    by_cases h1 : k1 = k
    · subst h1
      have : ¬ k1 = k2 := fun hh => h hh
      simp [eraseKey, lookupKey, this]
    · simp [eraseKey, lookupKey, h1, ih]

theorem lookupKey_eraseKey_isSome {α : Type} (l : List (String × α)) (k k2 : String) :
    (lookupKey (eraseKey l k) k2).isSome = true → (lookupKey l k2).isSome = true := by
  induction l with
  | nil => simp [eraseKey]
  | cons hd tl ih =>
    obtain ⟨k1, w⟩ := hd
    by_cases h1 : k1 = k
    · subst h1
      by_cases h2 : k1 = k2 <;> simp [eraseKey, lookupKey, h2]
    · by_cases h2 : k1 = k2
      · subst h2
        simp [eraseKey, lookupKey, h1]
      · intro hx
        simp only [eraseKey, if_neg h1, lookupKey, if_neg h2] at hx
        simp only [lookupKey, if_neg h2]
        exact ih hx

theorem mem_keys_eraseKey {α : Type} (l : List (String × α)) (k x : String) :
    x ∈ (eraseKey l k).map Prod.fst → x ∈ l.map Prod.fst := by
  induction l with
  | nil => simp [eraseKey]
  | cons hd tl ih =>
    obtain ⟨k1, w⟩ := hd
    by_cases h1 : k1 = k
    · subst h1
      intro hx
      simp only [eraseKey, if_pos rfl] at hx
      simp only [List.map_cons, List.mem_cons]
      exact Or.inr hx
    · intro hx
      simp only [eraseKey, if_neg h1, List.map_cons, List.mem_cons] at hx
      simp only [List.map_cons, List.mem_cons]
      rcases hx with hx | hx
      · exact Or.inl hx
      · exact Or.inr (ih hx)

theorem lookupKey_isSome_iff {α : Type} (l : List (String × α)) (k : String) :
    (lookupKey l k).isSome = true ↔ k ∈ l.map Prod.fst := by
  induction l with
  | nil => simp [lookupKey]
  | cons hd tl ih =>
    obtain ⟨k1, w⟩ := hd
    by_cases h1 : k1 = k
    · subst h1
      simp [lookupKey]
    · have : ¬ k = k1 := fun h => h1 h.symm
      simp [lookupKey, h1, this, ih]

theorem lookupKey_eraseKey_self {α : Type} (l : List (String × α)) (k : String)
    (h : NodupKeys l) : lookupKey (eraseKey l k) k = none := by
  induction l with
  | nil => simp [eraseKey, lookupKey]
  | cons hd tl ih =>
    obtain ⟨k1, w⟩ := hd
    have hnd : NodupKeys tl := by
      have := h
      simp only [NodupKeys, List.map_cons, List.nodup_cons] at this
      exact this.2
    by_cases h1 : k1 = k
    · subst h1
      have hk1 : k1 ∉ tl.map Prod.fst := by
        have := h
        simp only [NodupKeys, List.map_cons, List.nodup_cons] at this
        exact this.1
      have hs : eraseKey ((k1, w) :: tl) k1 = tl := by simp [eraseKey]
      rw [hs]
      cases hl : lookupKey tl k1 with
      | none => rfl
      | some v =>
        exfalso
        apply hk1
        rw [← lookupKey_isSome_iff]
        simp [hl]
    · simp [eraseKey, lookupKey, h1, ih hnd]

theorem keys_setKey_subset {α : Type} (l : List (String × α)) (k : String) (v : α)
    (x : String) : x ∈ (setKey l k v).map Prod.fst → x ∈ l.map Prod.fst ∨ x = k := by
  induction l with
  | nil => simp [setKey]
  | cons hd tl ih =>
    obtain ⟨k1, w⟩ := hd
    by_cases h1 : k1 = k
    · subst h1
      have hs : setKey ((k1, w) :: tl) k1 v = (k1, v) :: tl := by simp [setKey]
      rw [hs]
      intro hx
      simp only [List.map_cons, List.mem_cons] at hx
      simp only [List.map_cons, List.mem_cons]
      tauto
    · have hs : setKey ((k1, w) :: tl) k v = (k1, w) :: setKey tl k v := by
        simp [setKey, h1]
      rw [hs]
      intro hx
      simp only [List.map_cons, List.mem_cons] at hx
      simp only [List.map_cons, List.mem_cons]
      rcases hx with hx | hx
      · tauto
      · rcases ih hx with hh | hh <;> tauto

theorem nodupKeys_setKey {α : Type} (l : List (String × α)) (k : String) (v : α)
    (h : NodupKeys l) : NodupKeys (setKey l k v) := by
  induction l with
  | nil =>
    simp [setKey, NodupKeys]
  | cons hd tl ih =>
    obtain ⟨k1, w⟩ := hd
    simp only [NodupKeys, List.map_cons, List.nodup_cons] at h
    by_cases h1 : k1 = k
    · subst h1
      have hs : setKey ((k1, w) :: tl) k1 v = (k1, v) :: tl := by simp [setKey]
      rw [hs]
      simp only [NodupKeys, List.map_cons, List.nodup_cons]
      exact ⟨h.1, h.2⟩
    · have hset := ih h.2
      have hs : setKey ((k1, w) :: tl) k v = (k1, w) :: setKey tl k v := by
        simp [setKey, h1]
      rw [hs]
      simp only [NodupKeys, List.map_cons, List.nodup_cons]
      refine ⟨?_, hset⟩
      intro hmem
      rcases keys_setKey_subset tl k v k1 hmem with hh | hh
      · exact h.1 hh
      · exact h1 hh

theorem nodupKeys_eraseKey {α : Type} (l : List (String × α)) (k : String)
    (h : NodupKeys l) : NodupKeys (eraseKey l k) := by
  induction l with
  | nil => simpa [eraseKey] using h
  | cons hd tl ih =>
    obtain ⟨k1, w⟩ := hd
    simp only [NodupKeys, List.map_cons, List.nodup_cons] at h
    by_cases h1 : k1 = k
    · subst h1
      simpa [eraseKey, NodupKeys] using h.2
    · have her := ih h.2
      simp only [eraseKey, if_neg h1, NodupKeys, List.map_cons, List.nodup_cons]
      exact ⟨fun hm => h.1 (mem_keys_eraseKey tl k k1 hm), her⟩

theorem pyLowerChar_ofNat_toNat (n : Nat) (h : n < 128) : (Char.ofNat n).toNat = n := by
  unfold Char.ofNat
  split
  · rfl
  · next hc =>
    exfalso
    apply hc
    unfold Nat.isValidChar
    omega

theorem pyLowerChar_idem (c : Char) : pyLowerChar (pyLowerChar c) = pyLowerChar c := by
  unfold pyLowerChar
  by_cases h : 65 ≤ c.toNat ∧ c.toNat ≤ 90
  · rw [if_pos h]
    have ht : (Char.ofNat (c.toNat + 32)).toNat = c.toNat + 32 :=
      pyLowerChar_ofNat_toNat _ (by omega)
    have hneg : ¬ (65 ≤ (Char.ofNat (c.toNat + 32)).toNat ∧
        (Char.ofNat (c.toNat + 32)).toNat ≤ 90) := by
      rw [ht]
      omega
    rw [if_neg hneg]
  · rw [if_neg h, if_neg h]

theorem pyLower_idem (s : String) : pyLower (pyLower s) = pyLower s := by
  unfold pyLower
  congr 1
  show (s.data.map pyLowerChar).map pyLowerChar = s.data.map pyLowerChar
  induction s.data with
  | nil => rfl
  | cons c cs ih => simp [ih, pyLowerChar_idem c]

theorem foldl_max_init (l : List Nat) (a : Nat) : a ≤ l.foldl Nat.max a := by
  induction l generalizing a with
  | nil => simp
  | cons x xs ih =>
    calc a ≤ Nat.max a x := Nat.le_max_left a x
    _ ≤ xs.foldl Nat.max (Nat.max a x) := ih (Nat.max a x)

theorem foldl_max_mem (l : List Nat) (a x : Nat) (hx : x ∈ l) :
    x ≤ l.foldl Nat.max a := by
  induction l generalizing a with
  | nil => cases hx
  | cons y ys ih =>
    rcases List.mem_cons.mp hx with h | h
    · subst h
      calc x ≤ Nat.max a x := Nat.le_max_right a x
      _ ≤ ys.foldl Nat.max (Nat.max a x) := foldl_max_init ys (Nat.max a x)
    · exact ih (Nat.max a y) h

theorem le_maxList (l : List Nat) (x : Nat) (hx : x ∈ l) : x ≤ maxList l :=
  foldl_max_mem l 0 x hx

theorem lookupKey_cons_isSome {α : Type} (hd : String × α) (tl : List (String × α))
    (k : String) :
    (lookupKey tl k).isSome = true → (lookupKey (hd :: tl) k).isSome = true := by
  obtain ⟨k1, v⟩ := hd
  by_cases h : k1 = k <;> simp [lookupKey, h]

theorem lensAux_isSome (db : List (String × BossEntry)) (l : List (String × TrackInfo))
    (h : ∀ k, (lookupKey l k).isSome = true → (lookupKey db k).isSome = true) :
    ∃ out, lensAux db l = some out := by
  induction l with
  | nil => exact ⟨[], rfl⟩
  | cons p rest ih =>
    have hp : (lookupKey db p.1).isSome = true := by
      apply h
      obtain ⟨k1, v⟩ := p
      simp [lookupKey]
    obtain ⟨info, hinfo⟩ := Option.isSome_iff_exists.mp hp
    obtain ⟨out, hout⟩ := ih (fun k hk => h k (lookupKey_cons_isSome p rest k hk))
    exact ⟨info.name.length :: out, by simp [lensAux, hinfo, hout]⟩

theorem lensAux_isSome_inv (db : List (String × BossEntry))
    (l : List (String × TrackInfo)) (out : List Nat) (h : lensAux db l = some out)
    (k : String) (hk : (lookupKey l k).isSome = true) :
    (lookupKey db k).isSome = true := by
  induction l generalizing out with
  | nil => simp [lookupKey] at hk
  | cons p rest ih =>
    obtain ⟨k1, t1⟩ := p
    cases hdb : lookupKey db k1 with
    | none => simp [lensAux, hdb] at h
    | some i1 =>
      by_cases h1 : k1 = k
      · subst h1
        simp [hdb]
      · have hk2 : (lookupKey rest k).isSome = true := by
          simpa [lookupKey, h1] using hk
        cases hr : lensAux db rest with
        | none => simp [lensAux, hdb, hr] at h
        | some ls => exact ih ls hr hk2

theorem lensAux_mem (db : List (String × BossEntry)) (l : List (String × TrackInfo))
    (out : List Nat) (h : lensAux db l = some out) (k : String) (ti : TrackInfo)
    (hk : lookupKey l k = some ti) (bi : BossEntry)
    (hb : lookupKey db k = some bi) : bi.name.length ∈ out := by
  induction l generalizing out with
  | nil => simp [lookupKey] at hk
  | cons p rest ih =>
    obtain ⟨k1, t1⟩ := p
    by_cases h1 : k1 = k
    · subst h1
      simp only [lensAux, hb] at h
      cases hr : lensAux db rest with
      | none => rw [hr] at h; cases h
      | some ls =>
        rw [hr] at h
        have : bi.name.length :: ls = out := by
          simpa using h
        rw [← this]
        simp
    · have hk2 : lookupKey rest k = some ti := by
        simpa [lookupKey, h1] using hk
      cases hdb : lookupKey db k1 with
      | none => simp [lensAux, hdb] at h
      | some i1 =>
        cases hr : lensAux db rest with
        | none => simp [lensAux, hdb, hr] at h
        | some ls =>
          have hout : out = i1.name.length :: ls := by
            simp [lensAux, hdb, hr] at h
            exact h.symm
          rw [hout]
          exact List.mem_cons_of_mem _ (ih ls hr hk2)

theorem track_result (st : TrackerState) (now : Int) (n : String) (tod : Option String) :
    (track st now n tod).1 = st ∨
    ∃ info ld,
      lookupKey st.mvp_database (pyLower n) = some info ∧
      ld ≤ now ∧
      (tod = none → ld = now) ∧
      track st now n tod =
        (TrackerState.mk st.mvp_database
          (setKey st.tracked_mvps (pyLower n)
            (TrackInfo.mk now (some ld) (some (ld + info.downtime * usPerMin))
              (some (ld + info.downtime * usPerMin + info.spawn_range * usPerMin)))),
         "✅ Now tracking " ++ info.name) := by
  cases hdb : lookupKey st.mvp_database (pyLower n) with
  | none =>
    left
    simp [track, hdb]
  | some info =>
    cases tod with
    | none =>
      right
      refine ⟨info, now, rfl, le_refl now, fun _ => rfl, ?_⟩
      simp [track, hdb]
    | some t =>
      by_cases hemp : t = ""
      · right
        refine ⟨info, now, rfl, le_refl now, ?_, ?_⟩
        · intro hc
          cases hc
        · subst hemp
          simp [track, hdb]
      · cases hp : parseHM t with
        | none =>
          left
          simp [track, hdb, hemp, hp]
        | some hm =>
          obtain ⟨hh, mm⟩ := hm
          cases hr : replaceHM now hh mm with
          | none =>
            left
            simp [track, hdb, hemp, hp, hr]
          | some dt =>
            right
            have hbound : dt ≤ now + usPerDay ∧
                (dt > now → dt - usPerDay ≤ now) := by
              unfold replaceHM at hr
              split at hr
              · next hcond =>
                have hdt : dt = now - timeOfDay now + hh * usPerHour + mm * usPerMin := by
                  injection hr with h2
                  exact h2.symm
                have e4 : timeOfDay now = now % 86400000000 := rfl
                have e2 : usPerHour = (3600000000 : Int) := rfl
                have e3 : usPerMin = (60000000 : Int) := rfl
                have e1 : usPerDay = (86400000000 : Int) := rfl
                rw [e4, e2, e3] at hdt
                rw [e1]
                constructor <;> omega
              · cases hr
            refine ⟨info, if dt > now then dt - usPerDay else dt, rfl, ?_, ?_, ?_⟩
            · by_cases hgt : dt > now
              · simp only [if_pos hgt]
                exact hbound.2 hgt
              · simp only [if_neg hgt]
                omega
            · intro hcontra
              cases hcontra
            · simp [track, hdb, hemp, hp, hr]

theorem wf_add (st : TrackerState) (n : String) (d r : Int) (h : WF st) :
    WF (add_mvp st n d r).1 := by
  obtain ⟨hdb, htr, hsub⟩ := h
  refine ⟨?_, ?_, ?_⟩
  · simp only [add_mvp]
    exact nodupKeys_setKey _ _ _ hdb
  · simpa [add_mvp] using htr
  · intro k hk
    simp only [add_mvp] at hk
    simp only [add_mvp, lookupKey_setKey]
    by_cases he : pyLower n = k
    · simp [he]
    · simp only [if_neg he]
      exact hsub k hk

theorem wf_track (st : TrackerState) (now : Int) (n : String) (tod : Option String)
    (h : WF st) : WF (track st now n tod).1 := by
  rcases track_result st now n tod with heq | ⟨info, ld, hinfo, hle, hnone, heq⟩
  · rw [heq]
    exact h
  · obtain ⟨hdb, htr, hsub⟩ := h
    have h1 : (track st now n tod).1 = TrackerState.mk st.mvp_database
        (setKey st.tracked_mvps (pyLower n)
          (TrackInfo.mk now (some ld) (some (ld + info.downtime * usPerMin))
            (some (ld + info.downtime * usPerMin + info.spawn_range * usPerMin)))) := by
      rw [heq]
    rw [h1]
    refine ⟨hdb, nodupKeys_setKey _ _ _ htr, ?_⟩
    intro k hk
    simp only [lookupKey_setKey] at hk
    by_cases he : pyLower n = k
    · subst he
      simp [hinfo]
    · rw [if_neg he] at hk
      exact hsub k hk

theorem wf_remove (st : TrackerState) (n : String) (h : WF st) :
    WF (remove st n).1 := by
  obtain ⟨hdb, htr, hsub⟩ := h
  unfold remove
  by_cases ht : (lookupKey st.tracked_mvps (pyLower n)).isSome = true
  · rw [if_pos ht]
    have hwf2 : WF (TrackerState.mk st.mvp_database
        (eraseKey st.tracked_mvps (pyLower n))) := by
      refine ⟨hdb, nodupKeys_eraseKey _ _ htr, ?_⟩
      intro k hk
      exact hsub k (lookupKey_eraseKey_isSome _ _ _ hk)
    cases hb : lookupKey st.mvp_database (pyLower n) with
    | some info => exact hwf2
    | none => exact hwf2
  · rw [if_neg ht]
    exact ⟨hdb, htr, hsub⟩

theorem wf_delete (st : TrackerState) (n : String) (h : WF st) :
    WF (delete_mvp st n).1 := by
  obtain ⟨hdb, htr, hsub⟩ := h
  cases hb : lookupKey st.mvp_database (pyLower n) with
  | none =>
    have hs : (delete_mvp st n).1 = st := by simp [delete_mvp, hb]
    rw [hs]
    exact ⟨hdb, htr, hsub⟩
  | some info =>
    by_cases ht : (lookupKey st.tracked_mvps (pyLower n)).isSome = true
    · have hs : (delete_mvp st n).1 = TrackerState.mk
          (eraseKey st.mvp_database (pyLower n))
          (eraseKey st.tracked_mvps (pyLower n)) := by
        simp [delete_mvp, hb, ht]
      rw [hs]
      refine ⟨nodupKeys_eraseKey _ _ hdb, nodupKeys_eraseKey _ _ htr, ?_⟩
      intro k hk
      by_cases he : pyLower n = k
      · subst he
        rw [lookupKey_eraseKey_self _ _ htr] at hk
        cases hk
      · rw [lookupKey_eraseKey_ne _ _ _ he] at hk
        rw [lookupKey_eraseKey_ne _ _ _ he]
        exact hsub k hk
    · have hs : (delete_mvp st n).1 = TrackerState.mk
          (eraseKey st.mvp_database (pyLower n)) st.tracked_mvps := by
        simp [delete_mvp, hb, ht]
      rw [hs]
      refine ⟨nodupKeys_eraseKey _ _ hdb, htr, ?_⟩
      intro k hk
      by_cases he : pyLower n = k
      · subst he
        exact absurd hk ht
      · rw [lookupKey_eraseKey_ne _ _ _ he]
        exact hsub k hk

theorem reachable_wf (st : TrackerState) (h : Reachable st) : WF st := by
  induction h with
  | init =>
    refine ⟨?_, ?_, ?_⟩
    · simp [initialState, NodupKeys]
    · simp [initialState, NodupKeys]
    · intro k hk
      simp [initialState, lookupKey] at hk
  | step_add st n d r _ ih => exact wf_add st n d r ih
  | step_track st now n tod _ ih => exact wf_track st now n tod ih
  | step_remove st n _ ih => exact wf_remove st n ih
  | step_delete st n _ ih => exact wf_delete st n ih

theorem replace_fields (now h m ld : Int) (h0 : 0 ≤ h) (h23 : h ≤ 23)
    (m0 : 0 ≤ m) (m59 : m ≤ 59)
    (hld : ld = now - timeOfDay now + h * usPerHour + m * usPerMin ∨
           ld = now - timeOfDay now + h * usPerHour + m * usPerMin - usPerDay) :
    hourOf ld = h ∧ minuteOf ld = m ∧ secondOf ld = 0 ∧ microOf ld = 0 ∧
    (ld = now - timeOfDay now + h * usPerHour + m * usPerMin →
      dayOf ld = dayOf now) ∧
    (ld = now - timeOfDay now + h * usPerHour + m * usPerMin - usPerDay →
      dayOf ld = dayOf now - 1) := by
  have e1 : usPerDay = (86400000000 : Int) := rfl
  have e2 : usPerHour = (3600000000 : Int) := rfl
  have e3 : usPerMin = (60000000 : Int) := rfl
  have e4 : usPerSec = (1000000 : Int) := rfl
  simp only [hourOf, minuteOf, secondOf, microOf, dayOf, timeOfDay,
    e1, e2, e3, e4] at hld ⊢
  refine ⟨by omega, by omega, by omega, by omega, by omega, by omega⟩

/-! ### Claim theorems -/

/-- C1: Predictor correctness.  Whenever `track` records a death for a boss
whose stored profile is `(downtime, spawn_range)`, the stored window
satisfies `windowStart = lastDeath + downtime` minutes and
`windowEnd = windowStart + spawn_range` minutes; and whenever
`downtime ≥ 0` and `spawn_range ≥ 0` the recorded window satisfies
`windowEnd ≥ windowStart ≥ lastDeath`.  (If nothing is recorded — unknown
boss or malformed time — the ledger is unchanged.) -/
theorem predictor_window_correct (st : TrackerState) (now : Int) (n : String)
    (tod : Option String) :
    (track st now n tod).1.tracked_mvps = st.tracked_mvps ∨
    ∃ (info : BossEntry) (ld : Int),
      lookupKey st.mvp_database (pyLower n) = some info ∧
      (track st now n tod).1.tracked_mvps =
        setKey st.tracked_mvps (pyLower n)
          (TrackInfo.mk now (some ld) (some (ld + info.downtime * usPerMin))
            (some (ld + info.downtime * usPerMin + info.spawn_range * usPerMin))) ∧
      (0 ≤ info.downtime → 0 ≤ info.spawn_range →
        ld ≤ ld + info.downtime * usPerMin ∧
        ld + info.downtime * usPerMin ≤
          ld + info.downtime * usPerMin + info.spawn_range * usPerMin) := by
  rcases track_result st now n tod with heq | ⟨info, ld, hinfo, _, _, heq⟩
  · left
    rw [heq]
  · right
    refine ⟨info, ld, hinfo, ?_, ?_⟩
    · rw [heq]
    · intro hd hr
      have h1 : 0 ≤ info.downtime * usPerMin :=
        mul_nonneg hd (by norm_num [usPerMin])
      have h2 : 0 ≤ info.spawn_range * usPerMin :=
        mul_nonneg hr (by norm_num [usPerMin])
      omega

/-- C4 counterexample: the empty string is not parseable as a valid
24-hour "HH:MM" (Python `int('')` raises `ValueError`), yet `track` with
`time_of_death = ""` on a known boss does NOT return a format error with
the state unchanged: `if time_of_death:` is a truthiness test, `""` is
falsy, so the else branch records a death at `now`, mutates the ledger and
returns the success message. -/
theorem track_empty_time_cex :
    parseHM "" = none ∧
    (track (add_mvp initialState "x" 1 1).1 0 "x" (some "")).2 =
      "✅ Now tracking " ++ "x" ∧
    (track (add_mvp initialState "x" 1 1).1 0 "x" (some "")).2 ≠
      "❌ Invalid time format. Use HH:MM (24-hour format)" ∧
    (track (add_mvp initialState "x" 1 1).1 0 "x" (some "")).1.tracked_mvps ≠
      (add_mvp initialState "x" 1 1).1.tracked_mvps := by
  decide

/-- C4 (amended): Error handling of `track`.  For every input, `track`
either succeeds or returns a short human-readable error string without
raising: an unknown boss name returns a not-found message, and a
NON-EMPTY time string that is not parseable as a valid 24-hour "HH:MM"
returns a format-error message — the empty string is falsy in Python's
`if time_of_death:` test and is instead treated like an absent time
argument, recording a death at `now` with the success message.  In every
error case the ledger and the database are completely unchanged; the
database is never modified by `track`, and the ledger changes only when
the success message is returned. -/
theorem track_error_handling (st : TrackerState) (now : Int) (name : String)
    (tod : Option String) :
    (lookupKey st.mvp_database (pyLower name) = none →
      track st now name tod =
        (st, "❌ " ++ pyLower name ++ " not found in database")) ∧
    (∀ t : String, tod = some t → t ≠ "" →
      (lookupKey st.mvp_database (pyLower name)).isSome = true →
      (parseHM t = none ∨
        ∃ h m : Int, parseHM t = some (h, m) ∧ replaceHM now h m = none) →
      track st now name tod =
        (st, "❌ Invalid time format. Use HH:MM (24-hour format)")) ∧
    (∀ info : BossEntry, tod = some "" →
      lookupKey st.mvp_database (pyLower name) = some info →
      track st now name tod =
        (TrackerState.mk st.mvp_database
          (setKey st.tracked_mvps (pyLower name)
            (TrackInfo.mk now (some now) (some (now + info.downtime * usPerMin))
              (some (now + info.downtime * usPerMin + info.spawn_range * usPerMin)))),
         "✅ Now tracking " ++ info.name)) ∧
    (track st now name tod).1.mvp_database = st.mvp_database ∧
    ((track st now name tod).1.tracked_mvps = st.tracked_mvps ∨
      ∃ info : BossEntry, lookupKey st.mvp_database (pyLower name) = some info ∧
        (track st now name tod).2 = "✅ Now tracking " ++ info.name) := by
  refine ⟨?_, ?_, ?_, ?_, ?_⟩
  · intro hnone
    simp [track, hnone]
  · intro t ht hne hsome herr
    subst ht
    obtain ⟨info, hinfo⟩ := Option.isSome_iff_exists.mp hsome
    rcases herr with hp | ⟨h, m, hp, hr⟩
    · simp [track, hinfo, hne, hp]
    · simp [track, hinfo, hne, hp, hr]
  · intro info ht hinfo
    subst ht
    simp [track, hinfo]
  · rcases track_result st now name tod with heq | ⟨info, ld, hinfo, _, _, heq⟩
    · rw [heq]
    · rw [heq]
  · rcases track_result st now name tod with heq | ⟨info, ld, hinfo, _, _, heq⟩
    · left
      rw [heq]
    · right
      exact ⟨info, hinfo, by rw [heq]⟩

/-- C4 witness: concretely, an unknown boss yields the not-found error
with the state unchanged, a non-empty malformed time yields the
format error with the state unchanged, and the empty string records a
death at `now` with the success message. -/
theorem track_error_handling_witness :
    track initialState 0 "ghost" none =
      (initialState, "❌ " ++ pyLower "ghost" ++ " not found in database") ∧
    track (add_mvp initialState "y" 2 3).1 0 "y" (some "abc") =
      ((add_mvp initialState "y" 2 3).1,
       "❌ Invalid time format. Use HH:MM (24-hour format)") ∧
    track (add_mvp initialState "y" 2 3).1 0 "y" (some "") =
      (TrackerState.mk (add_mvp initialState "y" 2 3).1.mvp_database
        (setKey (add_mvp initialState "y" 2 3).1.tracked_mvps (pyLower "y")
          (TrackInfo.mk 0 (some 0)
            (some (0 + (BossEntry.mk "y" 2 3).downtime * usPerMin))
            (some (0 + (BossEntry.mk "y" 2 3).downtime * usPerMin +
              (BossEntry.mk "y" 2 3).spawn_range * usPerMin)))),
       "✅ Now tracking " ++ (BossEntry.mk "y" 2 3).name) :=
  ⟨(track_error_handling initialState 0 "ghost" none).1 (by decide),
   (track_error_handling (add_mvp initialState "y" 2 3).1 0 "y" (some "abc")).2.1
     "abc" rfl (by decide) (by decide) (Or.inl (by decide)),
   (track_error_handling (add_mvp initialState "y" 2 3).1 0 "y" (some "")).2.2.1
     (BossEntry.mk "y" 2 3) rfl (by decide)⟩

/-- C5: Referential invariant.  In every state reachable from the empty
state via the public operations, every tracked name has a database profile;
and applying any of the four operations to a reachable state preserves
this. -/
theorem tracked_subset_invariant :
    (∀ st : TrackerState, Reachable st → TrackedSubset st) ∧
    (∀ st : TrackerState, Reachable st → ∀ (n : String) (d r : Int),
      TrackedSubset (add_mvp st n d r).1) ∧
    (∀ st : TrackerState, Reachable st →
      ∀ (now : Int) (n : String) (tod : Option String),
      TrackedSubset (track st now n tod).1) ∧
    (∀ st : TrackerState, Reachable st → ∀ n : String,
      TrackedSubset (remove st n).1) ∧
    (∀ st : TrackerState, Reachable st → ∀ n : String,
      TrackedSubset (delete_mvp st n).1) :=
  ⟨fun st h => (reachable_wf st h).2.2,
   fun st h n d r => (reachable_wf _ (Reachable.step_add st n d r h)).2.2,
   fun st h now n tod => (reachable_wf _ (Reachable.step_track st now n tod h)).2.2,
   fun st h n => (reachable_wf _ (Reachable.step_remove st n h)).2.2,
   fun st h n => (reachable_wf _ (Reachable.step_delete st n h)).2.2⟩

/-- C5 witness: the invariant concretely, after adding and tracking a boss
from the empty state. -/
theorem tracked_subset_invariant_witness :
    TrackedSubset (track (add_mvp initialState "baphomet" 180 30).1 0 "baphomet" none).1 :=
  tracked_subset_invariant.2.2.1 (add_mvp initialState "baphomet" 180 30).1
    (Reachable.step_add initialState "baphomet" 180 30 Reachable.init) 0 "baphomet" none

/-- C8: Case-insensitive identity.  Every public operation lowercases the
boss name before using it as a key, so invoking an operation with any
capitalization variant is identical to invoking it with the lowercased
name, and any two variants with the same lowercasing act identically. -/
theorem case_insensitive_keys (st : TrackerState) (now : Int) (name : String)
    (d r : Int) (tod : Option String) :
    add_mvp st name d r = add_mvp st (pyLower name) d r ∧
    track st now name tod = track st now (pyLower name) tod ∧
    remove st name = remove st (pyLower name) ∧
    delete_mvp st name = delete_mvp st (pyLower name) ∧
    (∀ v : String, pyLower v = pyLower name →
      add_mvp st v d r = add_mvp st name d r ∧
      track st now v tod = track st now name tod ∧
      remove st v = remove st name ∧
      delete_mvp st v = delete_mvp st name) := by
  refine ⟨?_, ?_, ?_, ?_, ?_⟩
  · simp only [add_mvp, pyLower_idem]
  · simp only [track, pyLower_idem]
  · simp only [remove, pyLower_idem]
  · simp only [delete_mvp, pyLower_idem]
  · intro v hv
    refine ⟨?_, ?_, ?_, ?_⟩ <;>
      simp only [add_mvp, track, remove, delete_mvp, hv]

/-- C8 witness: two capitalization variants of "baphomet" acted on by
`track` concretely coincide. -/
theorem case_insensitive_keys_witness :
    track initialState 0 "BAPHOMET" none = track initialState 0 "Baphomet" none :=
  ((case_insensitive_keys initialState 0 "Baphomet" 0 0 none).2.2.2.2 "BAPHOMET"
    (by decide)).2.1

/-- C9: End-to-end scenario.  With profile ("baphomet", downtime 180,
spawn range 30), recording a death at "14:00" when the home-zone time is
14:05 (same day, day 0 of the model timeline) stores
windowStart = 17:00 and windowEnd = 17:30 of the same day, and at 17:15 the
classifier reports Open with remaining = 15 minutes. -/
theorem end_to_end_baphomet :
    hourOf ((14 * 3600 + 5 * 60) * usPerSec) = 14 ∧
    minuteOf ((14 * 3600 + 5 * 60) * usPerSec) = 5 ∧
    lookupKey (track (add_mvp initialState "baphomet" 180 30).1
        ((14 * 3600 + 5 * 60) * usPerSec) "baphomet"
        (some "14:00")).1.tracked_mvps "baphomet" =
      some (TrackInfo.mk ((14 * 3600 + 5 * 60) * usPerSec)
        (some ((14 * 3600) * usPerSec)) (some ((17 * 3600) * usPerSec))
        (some ((17 * 3600 + 30 * 60) * usPerSec))) ∧
    hourOf ((14 * 3600) * usPerSec) = 14 ∧
    minuteOf ((14 * 3600) * usPerSec) = 0 ∧
    dayOf ((14 * 3600) * usPerSec) = dayOf ((14 * 3600 + 5 * 60) * usPerSec) ∧
    hourOf ((17 * 3600) * usPerSec) = 17 ∧
    minuteOf ((17 * 3600) * usPerSec) = 0 ∧
    dayOf ((17 * 3600) * usPerSec) = dayOf ((14 * 3600 + 5 * 60) * usPerSec) ∧
    hourOf ((17 * 3600 + 30 * 60) * usPerSec) = 17 ∧
    minuteOf ((17 * 3600 + 30 * 60) * usPerSec) = 30 ∧
    dayOf ((17 * 3600 + 30 * 60) * usPerSec) = dayOf ((14 * 3600 + 5 * 60) * usPerSec) ∧
    hourOf ((17 * 3600 + 15 * 60) * usPerSec) = 17 ∧
    minuteOf ((17 * 3600 + 15 * 60) * usPerSec) = 15 ∧
    classify ((17 * 3600 + 15 * 60) * usPerSec) (some ((14 * 3600) * usPerSec))
      (some ((17 * 3600) * usPerSec)) (some ((17 * 3600 + 30 * 60) * usPerSec)) =
      some (RowStatus.openWin 15) := by
  decide

/-- C10: `add_mvp` performs no validation of its numeric arguments: for
every name and all integers (including negative ones) it stores exactly
those values under the lowercased name and returns the success message;
a subsequent `track` on such a profile yields `windowEnd < windowStart`
when `spawn_range < 0`, and `windowStart < lastDeath` when
`downtime < 0`. -/
theorem add_mvp_no_validation (st : TrackerState) (name : String) (d r : Int) :
    (add_mvp st name d r).1.mvp_database =
      setKey st.mvp_database (pyLower name) (BossEntry.mk (pyLower name) d r) ∧
    (add_mvp st name d r).1.tracked_mvps = st.tracked_mvps ∧
    lookupKey (add_mvp st name d r).1.mvp_database (pyLower name) =
      some (BossEntry.mk (pyLower name) d r) ∧
    (add_mvp st name d r).2 =
      "✅ Added/Updated " ++ pyLower name ++ " (DT: " ++ toString d ++
        "m, SR: " ++ toString r ++ "m)" ∧
    (∀ now : Int,
      lookupKey (track (add_mvp st name d r).1 now name none).1.tracked_mvps
          (pyLower name) =
        some (TrackInfo.mk now (some now) (some (now + d * usPerMin))
          (some (now + d * usPerMin + r * usPerMin)))) ∧
    (r < 0 → ∀ now : Int, now + d * usPerMin + r * usPerMin < now + d * usPerMin) ∧
    (d < 0 → ∀ now : Int, now + d * usPerMin < now) := by
  have hdb : lookupKey (add_mvp st name d r).1.mvp_database (pyLower name) =
      some (BossEntry.mk (pyLower name) d r) := by
    simp [add_mvp, lookupKey_setKey_self]
  refine ⟨?_, ?_, hdb, ?_, ?_, ?_, ?_⟩
  · simp [add_mvp]
  · simp [add_mvp]
  · simp [add_mvp]
  · intro now
    simp [track, hdb, lookupKey_setKey_self]
  · intro hr now
    have : r * usPerMin < 0 := mul_neg_of_neg_of_pos hr (by norm_num [usPerMin])
    omega
  · intro hd now
    have : d * usPerMin < 0 := mul_neg_of_neg_of_pos hd (by norm_num [usPerMin])
    omega

/-- C10 witness: concretely adding a boss with negative downtime and
negative spawn range and tracking it produces an inverted window. -/
theorem add_mvp_no_validation_witness :
    lookupKey (track (add_mvp initialState "bad" (-5) (-7)).1 0 "bad" none).1.tracked_mvps
        (pyLower "bad") =
      some (TrackInfo.mk 0 (some 0) (some (0 + (-5 : Int) * usPerMin))
        (some (0 + (-5 : Int) * usPerMin + (-7 : Int) * usPerMin))) ∧
    (0 : Int) + (-5 : Int) * usPerMin + (-7 : Int) * usPerMin < 0 + (-5 : Int) * usPerMin ∧
    (0 : Int) + (-5 : Int) * usPerMin < 0 := by
  have h := add_mvp_no_validation initialState "bad" (-5) (-7)
  exact ⟨h.2.2.2.2.1 0, h.2.2.2.2.2.1 (by norm_num) 0, h.2.2.2.2.2.2 (by norm_num) 0⟩

/-- C2 counterexample: the claim's Overdue clause ("Overdue when
now > windowEnd") fails on the code for a record with an inverted window,
which the public API can create via a negative spawn range: with
windowStart = 100 min, windowEnd = 50 min and now = 70 min we have
now > windowEnd, yet the code renders Pending (the `now < windowStart`
branch is checked first). -/
theorem classifier_overdue_cex :
    lookupKey (track (add_mvp initialState "x" 100 (-50)).1 0 "x" none).1.tracked_mvps
        "x" =
      some (TrackInfo.mk 0 (some 0) (some (100 * usPerMin)) (some (50 * usPerMin))) ∧
    (50 : Int) * usPerMin < 70 * usPerMin ∧
    classify (70 * usPerMin) (some 0) (some (100 * usPerMin)) (some (50 * usPerMin)) =
      some (RowStatus.pending 30) ∧
    classify (70 * usPerMin) (some 0) (some (100 * usPerMin)) (some (50 * usPerMin)) ≠
      some RowStatus.overdue := by
  decide

/-- C2 (amended): Status classifier.  For a record with a recorded last
death and both window fields, the rendered status is Pending with
remaining = floor((windowStart − now) minutes) when now < windowStart,
Open with remaining = floor((windowEnd − now) minutes) when
windowStart ≤ now ≤ windowEnd (inclusive at both boundary instants), and
Overdue when now > windowEnd AND now ≥ windowStart (for records with
windowStart ≤ windowEnd this is exactly now > windowEnd); a record with no
recorded last death renders as the distinct Unknown/no-record state. -/
theorem classifier_states (now ld s e : Int) :
    (now < s → classify now (some ld) (some s) (some e) =
      some (RowStatus.pending ((s - now) / usPerMin))) ∧
    (s ≤ now → now ≤ e → classify now (some ld) (some s) (some e) =
      some (RowStatus.openWin ((e - now) / usPerMin))) ∧
    (s ≤ now → e < now → classify now (some ld) (some s) (some e) =
      some RowStatus.overdue) ∧
    (∀ nss nse : Option Int, classify now none nss nse = some RowStatus.noRecord) ∧
    RowStatus.noRecord ≠ RowStatus.overdue ∧
    statusStr RowStatus.noRecord ≠ statusStr RowStatus.overdue := by
  refine ⟨?_, ?_, ?_, ?_, ?_, ?_⟩
  · intro h
    have hnn : (0 : Int) ≤ s - now := by omega
    have hb : (0 : Int) ≤ usPerMin := by norm_num [usPerMin]
    simp [classify, h, Int.tdiv_eq_ediv hnn hb]
  · intro h1 h2
    have hns : ¬ now < s := by omega
    have hnn : (0 : Int) ≤ e - now := by omega
    have hb : (0 : Int) ≤ usPerMin := by norm_num [usPerMin]
    simp [classify, hns, h1, h2, Int.tdiv_eq_ediv hnn hb]
  · intro h1 h2
    have hns : ¬ now < s := by omega
    have hne : ¬ (s ≤ now ∧ now ≤ e) := by omega
    simp [classify, hns, hne]
  · intro nss nse
    rfl
  · decide
  · decide

/-- C2 witness: the amended classifier clauses at concrete boundary
instants — now = windowStart and now = windowEnd are both Open, one
microsecond past windowEnd is Overdue, and one minute before windowStart
is Pending with a 1-minute countdown. -/
theorem classifier_states_witness :
    classify usPerMin (some 0) (some (2 * usPerMin)) (some (3 * usPerMin)) =
      some (RowStatus.pending ((2 * usPerMin - usPerMin) / usPerMin)) ∧
    classify (2 * usPerMin) (some 0) (some (2 * usPerMin)) (some (3 * usPerMin)) =
      some (RowStatus.openWin ((3 * usPerMin - 2 * usPerMin) / usPerMin)) ∧
    classify (3 * usPerMin) (some 0) (some (2 * usPerMin)) (some (3 * usPerMin)) =
      some (RowStatus.openWin ((3 * usPerMin - 3 * usPerMin) / usPerMin)) ∧
    classify (3 * usPerMin + 1) (some 0) (some (2 * usPerMin)) (some (3 * usPerMin)) =
      some RowStatus.overdue ∧
    classify 0 none (some (2 * usPerMin)) (some (3 * usPerMin)) =
      some RowStatus.noRecord :=
  ⟨(classifier_states usPerMin 0 (2 * usPerMin) (3 * usPerMin)).1
      (by norm_num [usPerMin]),
   (classifier_states (2 * usPerMin) 0 (2 * usPerMin) (3 * usPerMin)).2.1
      (by norm_num [usPerMin]) (by norm_num [usPerMin]),
   (classifier_states (3 * usPerMin) 0 (2 * usPerMin) (3 * usPerMin)).2.1
      (by norm_num [usPerMin]) (by norm_num [usPerMin]),
   (classifier_states (3 * usPerMin + 1) 0 (2 * usPerMin) (3 * usPerMin)).2.2.1
      (by norm_num [usPerMin]) (by norm_num [usPerMin]),
   (classifier_states 0 0 (2 * usPerMin) (3 * usPerMin)).2.2.2.1 (some (2 * usPerMin))
      (some (3 * usPerMin))⟩

/-- C6: Stop-tracking and delete-profile are distinct operations.
`remove` on a tracked boss deletes only that boss's tracking record,
leaving the database and every other tracking record unchanged;
`delete_mvp` on an existing profile deletes that profile and
cascade-removes its tracking record, leaving all other profiles and
records unchanged; `remove` on an untracked name and `delete_mvp` on an
unknown name are reported no-ops that change nothing. -/
theorem remove_delete_frame (st : TrackerState) (name : String) :
    (∀ (ti : TrackInfo) (bi : BossEntry),
      lookupKey st.tracked_mvps (pyLower name) = some ti →
      lookupKey st.mvp_database (pyLower name) = some bi →
      NodupKeys st.tracked_mvps →
      (remove st name).1.mvp_database = st.mvp_database ∧
      lookupKey (remove st name).1.tracked_mvps (pyLower name) = none ∧
      (∀ k : String, k ≠ pyLower name →
        lookupKey (remove st name).1.tracked_mvps k = lookupKey st.tracked_mvps k) ∧
      (remove st name).2 = some ("✅ Removed " ++ bi.name ++ " from tracker")) ∧
    (lookupKey st.tracked_mvps (pyLower name) = none →
      remove st name = (st, some ("❌ " ++ pyLower name ++ " is not being tracked"))) ∧
    (∀ bi : BossEntry,
      lookupKey st.mvp_database (pyLower name) = some bi →
      NodupKeys st.mvp_database → NodupKeys st.tracked_mvps →
      lookupKey (delete_mvp st name).1.mvp_database (pyLower name) = none ∧
      lookupKey (delete_mvp st name).1.tracked_mvps (pyLower name) = none ∧
      (∀ k : String, k ≠ pyLower name →
        lookupKey (delete_mvp st name).1.mvp_database k = lookupKey st.mvp_database k ∧
        lookupKey (delete_mvp st name).1.tracked_mvps k = lookupKey st.tracked_mvps k) ∧
      (delete_mvp st name).2 = "✅ Deleted " ++ bi.name ++ " from database") ∧
    (lookupKey st.mvp_database (pyLower name) = none →
      delete_mvp st name = (st, "❌ " ++ pyLower name ++ " not found in database")) := by
  refine ⟨?_, ?_, ?_, ?_⟩
  · intro ti bi ht hb htr
    have hsome : (lookupKey st.tracked_mvps (pyLower name)).isSome = true := by
      simp [ht]
    have hs : remove st name =
        (TrackerState.mk st.mvp_database (eraseKey st.tracked_mvps (pyLower name)),
         some ("✅ Removed " ++ bi.name ++ " from tracker")) := by
      simp [remove, hsome, hb]
    rw [hs]
    refine ⟨rfl, ?_, ?_, rfl⟩
    · exact lookupKey_eraseKey_self _ _ htr
    · intro k hk
      exact lookupKey_eraseKey_ne _ _ _ (Ne.symm hk)
  · intro hnone
    have hsome : ¬ (lookupKey st.tracked_mvps (pyLower name)).isSome = true := by
      simp [hnone]
    simp [remove, hsome]
  · intro bi hb hdb htr
    by_cases ht : (lookupKey st.tracked_mvps (pyLower name)).isSome = true
    · have hs : delete_mvp st name =
          (TrackerState.mk (eraseKey st.mvp_database (pyLower name))
            (eraseKey st.tracked_mvps (pyLower name)),
           "✅ Deleted " ++ bi.name ++ " from database") := by
        simp [delete_mvp, hb, ht]
      rw [hs]
      refine ⟨lookupKey_eraseKey_self _ _ hdb, lookupKey_eraseKey_self _ _ htr, ?_, rfl⟩
      intro k hk
      exact ⟨lookupKey_eraseKey_ne _ _ _ (Ne.symm hk),
        lookupKey_eraseKey_ne _ _ _ (Ne.symm hk)⟩
    · have hs : delete_mvp st name =
          (TrackerState.mk (eraseKey st.mvp_database (pyLower name)) st.tracked_mvps,
           "✅ Deleted " ++ bi.name ++ " from database") := by
        simp [delete_mvp, hb, ht]
      rw [hs]
      refine ⟨lookupKey_eraseKey_self _ _ hdb, ?_, ?_, rfl⟩
      · simp only [Option.isSome] at ht
        cases hlt : lookupKey st.tracked_mvps (pyLower name) with
        | none => rfl
        | some v => rw [hlt] at ht; simp at ht
      · intro k hk
        exact ⟨lookupKey_eraseKey_ne _ _ _ (Ne.symm hk), rfl⟩
  · intro hnone
    simp [delete_mvp, hnone]

/-- C6 witness: concretely, removing a tracked boss deletes its record and
keeps its profile, and deleting an untracked unknown name is a no-op. -/
theorem remove_delete_frame_witness :
    (remove (track (add_mvp initialState "alpha" 5 5).1 0 "alpha" none).1 "alpha").2 =
      some ("✅ Removed " ++ (BossEntry.mk "alpha" 5 5).name ++ " from tracker") ∧
    delete_mvp initialState "ghost" =
      (initialState, "❌ " ++ pyLower "ghost" ++ " not found in database") := by
  constructor
  · have h := (remove_delete_frame
      (track (add_mvp initialState "alpha" 5 5).1 0 "alpha" none).1 "alpha").1
      (TrackInfo.mk 0 (some 0) (some (0 + 5 * usPerMin))
        (some (0 + 5 * usPerMin + 5 * usPerMin)))
      (BossEntry.mk "alpha" 5 5) (by decide) (by decide)
      (by unfold NodupKeys; decide)
    exact h.2.2.2
  · exact (remove_delete_frame initialState "ghost").2.2.2 (by decide)

/-- C7 counterexample: the claim's "strictly larger width" consequence
fails on the code: with only "ab" tracked the width is the minimum 4;
adding and tracking "abc" — strictly longer than every current boss name —
leaves the width at 4, not strictly larger. -/
theorem name_column_width_cex :
    maxNameLen (track (add_mvp initialState "ab" 1 1).1 0 "ab" none).1 = some 4 ∧
    "ab".length < "abc".length ∧
    maxNameLen (track (add_mvp (track (add_mvp initialState "ab" 1 1).1 0 "ab" none).1
        "abc" 1 1).1 0 "abc" none).1 = some 4 ∧
    ¬ (4 : Nat) < 4 := by
  decide

/-- C7 (amended): Renderer column alignment.  The name-column width is ≥
the length of every tracked boss's name and ≥ the fixed minimum 4; and
adding and tracking a boss whose (lowercased) name is longer than the
CURRENT WIDTH strictly increases the width.  (A new name longer than every
current boss name but not longer than the minimum 4 leaves the width at
4.) -/
theorem name_column_width (st : TrackerState) (w : Nat)
    (hw : maxNameLen st = some w) :
    4 ≤ w ∧
    (∀ (k : String) (ti : TrackInfo) (bi : BossEntry),
      lookupKey st.tracked_mvps k = some ti →
      lookupKey st.mvp_database k = some bi → bi.name.length ≤ w) ∧
    (∀ (n2 : String) (d r now : Int), w < (pyLower n2).length →
      ∃ w2 : Nat,
        maxNameLen (track (add_mvp st n2 d r).1 now n2 none).1 = some w2 ∧
        w < w2) := by
  obtain ⟨lens, hlens, hwval⟩ :
      ∃ lens, trackedNameLens st = some lens ∧ w = maxList (lens ++ [4]) := by
    cases ht : trackedNameLens st with
    | none =>
      rw [maxNameLen, ht] at hw
      cases hw
    | some lens =>
      rw [maxNameLen, ht] at hw
      simp only [Option.map_some'] at hw
      exact ⟨lens, rfl, (Option.some_inj.mp hw).symm⟩
  refine ⟨?_, ?_, ?_⟩
  · rw [hwval]
    exact le_maxList _ 4 (by simp)
  · intro k ti bi hk hb
    rw [hwval]
    exact le_maxList _ _ (List.mem_append_left _
      (lensAux_mem st.mvp_database st.tracked_mvps lens hlens k ti hk bi hb))
  · intro n2 d r now hlong
    have hdb1 : lookupKey (add_mvp st n2 d r).1.mvp_database (pyLower n2) =
        some (BossEntry.mk (pyLower n2) d r) := by
      simp [add_mvp, lookupKey_setKey_self]
    have hshape : (track (add_mvp st n2 d r).1 now n2 none).1 =
        TrackerState.mk
          (setKey st.mvp_database (pyLower n2) (BossEntry.mk (pyLower n2) d r))
          (setKey st.tracked_mvps (pyLower n2)
            (TrackInfo.mk now (some now) (some (now + d * usPerMin))
              (some (now + d * usPerMin + r * usPerMin)))) := by
      simp [track, add_mvp, lookupKey_setKey_self]
    rw [hshape]
    have hsub2 : ∀ k : String,
        (lookupKey (setKey st.tracked_mvps (pyLower n2)
          (TrackInfo.mk now (some now) (some (now + d * usPerMin))
            (some (now + d * usPerMin + r * usPerMin)))) k).isSome = true →
        (lookupKey (setKey st.mvp_database (pyLower n2)
          (BossEntry.mk (pyLower n2) d r)) k).isSome = true := by
      intro k hk
      rw [lookupKey_setKey]
      by_cases he : pyLower n2 = k
      · simp [he]
      · rw [if_neg he]
        rw [lookupKey_setKey, if_neg he] at hk
        exact lensAux_isSome_inv st.mvp_database st.tracked_mvps lens hlens k hk
    obtain ⟨out, hout⟩ := lensAux_isSome _ _ hsub2
    refine ⟨maxList (out ++ [4]), ?_, ?_⟩
    · simp only [maxNameLen, trackedNameLens]
      rw [hout]
      rfl
    · have hmem : (BossEntry.mk (pyLower n2) d r).name.length ∈ out := by
        apply lensAux_mem _ _ out hout (pyLower n2)
          (TrackInfo.mk now (some now) (some (now + d * usPerMin))
            (some (now + d * usPerMin + r * usPerMin)))
          (lookupKey_setKey_self _ _ _) _ (lookupKey_setKey_self _ _ _)
      have hle : (pyLower n2).length ≤ maxList (out ++ [4]) :=
        le_maxList _ _ (List.mem_append_left _ hmem)
      omega

/-- C3: HH:MM death-time entry round-trip.  For every valid "HH:MM" input
(the string parses and the hour/minute are in range), the recorded death
time has wall-clock hour and minute exactly equal to the input with second
and microsecond zero; its date is today (the day of `now`) when that
today-time is ≤ now, and exactly one day earlier when the today-time would
be > now.  With no time argument the recorded death time equals `now`. -/
theorem hhmm_roundtrip (st : TrackerState) (now : Int) (name : String)
    (info : BossEntry)
    (hinfo : lookupKey st.mvp_database (pyLower name) = some info) :
    (∀ (tod : String) (h m : Int), parseHM tod = some (h, m) →
      0 ≤ h → h ≤ 23 → 0 ≤ m → m ≤ 59 →
      ∃ ld : Int,
        lookupKey (track st now name (some tod)).1.tracked_mvps (pyLower name) =
          some (TrackInfo.mk now (some ld) (some (ld + info.downtime * usPerMin))
            (some (ld + info.downtime * usPerMin + info.spawn_range * usPerMin))) ∧
        hourOf ld = h ∧ minuteOf ld = m ∧ secondOf ld = 0 ∧ microOf ld = 0 ∧
        (now - timeOfDay now + h * usPerHour + m * usPerMin ≤ now →
          dayOf ld = dayOf now) ∧
        (now < now - timeOfDay now + h * usPerHour + m * usPerMin →
          dayOf ld = dayOf now - 1)) ∧
    lookupKey (track st now name none).1.tracked_mvps (pyLower name) =
      some (TrackInfo.mk now (some now) (some (now + info.downtime * usPerMin))
        (some (now + info.downtime * usPerMin + info.spawn_range * usPerMin))) := by
  constructor
  · intro tod h m hp h0 h23 m0 m59
    have hr : replaceHM now h m =
        some (now - timeOfDay now + h * usPerHour + m * usPerMin) := by
      unfold replaceHM
      rw [if_pos ⟨h0, h23, m0, m59⟩]
    have hne : ¬ tod = "" := by
      intro he
      have hpe : parseHM "" = none := by decide
      rw [he, hpe] at hp
      cases hp
    refine ⟨if now - timeOfDay now + h * usPerHour + m * usPerMin > now
        then now - timeOfDay now + h * usPerHour + m * usPerMin - usPerDay
        else now - timeOfDay now + h * usPerHour + m * usPerMin,
      ?_, ?_, ?_, ?_, ?_, ?_, ?_⟩
    · simp [track, hinfo, hne, hp, hr, lookupKey_setKey_self]
    all_goals
      by_cases hgt : now - timeOfDay now + h * usPerHour + m * usPerMin > now
    · rw [if_pos hgt]
      exact (replace_fields now h m _ h0 h23 m0 m59 (Or.inr rfl)).1
    · rw [if_neg hgt]
      exact (replace_fields now h m _ h0 h23 m0 m59 (Or.inl rfl)).1
    · rw [if_pos hgt]
      exact (replace_fields now h m _ h0 h23 m0 m59 (Or.inr rfl)).2.1
    · rw [if_neg hgt]
      exact (replace_fields now h m _ h0 h23 m0 m59 (Or.inl rfl)).2.1
    · rw [if_pos hgt]
      exact (replace_fields now h m _ h0 h23 m0 m59 (Or.inr rfl)).2.2.1
    · rw [if_neg hgt]
      exact (replace_fields now h m _ h0 h23 m0 m59 (Or.inl rfl)).2.2.1
    · rw [if_pos hgt]
      exact (replace_fields now h m _ h0 h23 m0 m59 (Or.inr rfl)).2.2.2.1
    · rw [if_neg hgt]
      exact (replace_fields now h m _ h0 h23 m0 m59 (Or.inl rfl)).2.2.2.1
    · rw [if_pos hgt]
      intro hle
      omega
    · rw [if_neg hgt]
      intro hle
      exact (replace_fields now h m _ h0 h23 m0 m59 (Or.inl rfl)).2.2.2.2.1 rfl
    · rw [if_pos hgt]
      intro hlt
      exact (replace_fields now h m _ h0 h23 m0 m59 (Or.inr rfl)).2.2.2.2.2 rfl
    · rw [if_neg hgt]
      intro hlt
      omega
  · simp [track, hinfo, lookupKey_setKey_self]

/-- C3 witness: at a concrete state and time (14:05 on day 0, boss "boss"
with profile (7, 9)), tracking with "14:00" records a death time whose
wall clock is 14:00:00.000000 on the same day, and tracking with no time
argument records `now` itself. -/
theorem hhmm_roundtrip_witness :
    (∃ ld : Int,
      lookupKey (track (add_mvp initialState "boss" 7 9).1
          ((14 * 3600 + 5 * 60) * usPerSec) "boss"
          (some "14:00")).1.tracked_mvps (pyLower "boss") =
        some (TrackInfo.mk ((14 * 3600 + 5 * 60) * usPerSec) (some ld)
          (some (ld + (BossEntry.mk "boss" 7 9).downtime * usPerMin))
          (some (ld + (BossEntry.mk "boss" 7 9).downtime * usPerMin +
            (BossEntry.mk "boss" 7 9).spawn_range * usPerMin))) ∧
      hourOf ld = 14 ∧ minuteOf ld = 0 ∧ secondOf ld = 0 ∧ microOf ld = 0 ∧
      ((14 * 3600 + 5 * 60) * usPerSec - timeOfDay ((14 * 3600 + 5 * 60) * usPerSec) +
          14 * usPerHour + 0 * usPerMin ≤ (14 * 3600 + 5 * 60) * usPerSec →
        dayOf ld = dayOf ((14 * 3600 + 5 * 60) * usPerSec)) ∧
      ((14 * 3600 + 5 * 60) * usPerSec <
          (14 * 3600 + 5 * 60) * usPerSec - timeOfDay ((14 * 3600 + 5 * 60) * usPerSec) +
            14 * usPerHour + 0 * usPerMin →
        dayOf ld = dayOf ((14 * 3600 + 5 * 60) * usPerSec) - 1)) ∧
    lookupKey (track (add_mvp initialState "boss" 7 9).1
        ((14 * 3600 + 5 * 60) * usPerSec) "boss" none).1.tracked_mvps (pyLower "boss") =
      some (TrackInfo.mk ((14 * 3600 + 5 * 60) * usPerSec)
        (some ((14 * 3600 + 5 * 60) * usPerSec))
        (some ((14 * 3600 + 5 * 60) * usPerSec +
          (BossEntry.mk "boss" 7 9).downtime * usPerMin))
        (some ((14 * 3600 + 5 * 60) * usPerSec +
          (BossEntry.mk "boss" 7 9).downtime * usPerMin +
          (BossEntry.mk "boss" 7 9).spawn_range * usPerMin))) := by
  have h := hhmm_roundtrip (add_mvp initialState "boss" 7 9).1
    ((14 * 3600 + 5 * 60) * usPerSec) "boss" (BossEntry.mk "boss" 7 9) (by decide)
  exact ⟨h.1 "14:00" 14 0 (by decide) (by decide) (by decide) (by decide) (by decide),
    h.2⟩

/-- C7 witness (for the amended theorem): with "ab" tracked (width 4),
adding and tracking "abcde" (length 5 > 4) strictly increases the width. -/
theorem name_column_width_witness :
    4 ≤ 4 ∧
    (∃ w2 : Nat,
      maxNameLen (track (add_mvp (track (add_mvp initialState "ab" 1 1).1 0 "ab" none).1
          "abcde" 2 3).1 7 "abcde" none).1 = some w2 ∧
      4 < w2) := by
  have h := name_column_width (track (add_mvp initialState "ab" 1 1).1 0 "ab" none).1 4
    (by decide)
  exact ⟨h.1, h.2.2 "abcde" 2 3 7 (by decide)⟩

end MVPBot
